import Mathlib

/-!
Verification of the defect-geometry and snapshot-surgery subsystem of the
Defects repository (src/defects.py).

The embedding models a hoomd particle snapshot as parallel per-particle
arrays: the body (molecule id) array, plus a list of further per-particle
attribute channels (position, velocity, and so on).  Machine reals produced
by Python division are modelled by rationals: every intermediate value of
central_molecule is an exact half-integer, on which Python float arithmetic
is exact.  Fallible code returns Except: IndexError from the
molecule-existence check is invalidIndex, ValueError from the negative count
guards is invalidArgument, and the numpy ValueError raised by a mismatched
slice assignment in the body relabel copy is broadcast.
-/

namespace Defects

/-- A hoomd SnapshotParticleData: simulation box, type tables, the body
(molecule id) array, and the remaining per-particle attribute arrays
(position, velocity, orientation, and so on), each listed only when present
and each of length equal to the particle count. -/
structure Snapshot where
  box : Int
  types : List Nat
  pairTypes : List Nat
  body : List Nat
  attrs : List (List Int)
  deriving DecidableEq

/-- The particle count of a snapshot; hoomd keeps every per-particle array,
in particular the body array, at exactly this length. -/
def Snapshot.N (s : Snapshot) : Nat := s.body.length

/-- Error outcomes of the subsystem: IndexError from the molecule-existence
check, ValueError from the negative-count guards, and the numpy shape
ValueError from a mismatched body relabel copy. -/
inductive Err
  | invalidIndex
  | invalidArgument
  | broadcast
  deriving DecidableEq

/-- Python int() applied to a real value truncates toward zero. -/
def pythonInt (q : ℚ) : Int :=
  if q < 0 then Int.ceil q else Int.floor q

/-- Python range(start, stop) over integers. -/
def pythonRange (start stop : Int) : List Int :=
  (List.range (stop - start).toNat).map (fun k : Nat => start + (k : Int))

/-- Python range(start, stop, step) for a positive step. -/
def pythonRangeStep (start stop step : Int) : List Int :=
  (List.range (((stop - start + step - 1).fdiv step).toNat)).map
    (fun k : Nat => start + step * (k : Int))

/-- Python max over the body array; the caller only evaluates it on a
non-empty array (the particle-existence guard fires first on an empty one). -/
def maxBody (l : List Nat) : Nat := l.foldr max 0

/-- numpy slice assignment target[:] = src on a one-dimensional array of
length n: an equal-length source is copied elementwise, a length-one source
is broadcast to fill the target, and any other length raises ValueError. -/
def broadcastAssign (n : Nat) (src : List Nat) : Option (List Nat) :=
  if src.length = n then some src
  else
    match src with
    | [a] => some (List.replicate n a)
    | _ => none

/-- numpy boolean-mask selection arr[body != index] applied to a
per-particle attribute array. -/
def maskFilter (body : List Nat) (arr : List Int) (index : Int) : List Int :=
  ((body.zip arr).filter (fun p => decide ((p.1 : Int) ≠ index))).map Prod.snd

/-- remove_molecule from src/defects.py: keep the particles whose body
differs from index; raise IndexError when nothing was dropped; copy every
present attribute array through the keep mask into a fresh snapshot of the
reduced size; finally overwrite the new body array with the old body values
of the particles outside the molecule carrying the largest body id (numpy
slice assignment, hence the broadcast case). -/
def remove_molecule (s : Snapshot) (index : Int) : Except Err Snapshot :=
  if (s.body.filter (fun b : Nat => decide ((b : Int) ≠ index))).length = s.N then
    Except.error Err.invalidIndex
  else
    match broadcastAssign (s.body.filter (fun b : Nat => decide ((b : Int) ≠ index))).length
        (s.body.filter (fun b : Nat => decide (b ≠ maxBody s.body))) with
    | none => Except.error Err.broadcast
    | some newBody =>
      Except.ok ⟨s.box, s.types, s.pairTypes, newBody,
        s.attrs.map (fun arr => maskFilter s.body arr index)⟩

/-- central_molecule from src/defects.py:
int((x / 2 * y + y / 2) * cell_molecules) with Python real division. -/
def central_molecule (cell_dimensions : Int × Int) (cell_molecules : Int) : Int :=
  pythonInt (((cell_dimensions.1 : ℚ) / 2 * (cell_dimensions.2 : ℚ)
    + (cell_dimensions.2 : ℚ) / 2) * (cell_molecules : ℚ))

/-- The loop range of remove_vertical:
range(center - 2 * num_mols // 2, center).  Python groups the bound as
center - ((2 * num_mols) // 2) since * and // associate to the left. -/
def verticalIndices (center num_mols : Int) : List Int :=
  pythonRange (center - (2 * num_mols).fdiv 2) center

/-- remove_vertical from src/defects.py: guard the count, then fold
remove_molecule over the vertical index run. -/
def remove_vertical (s : Snapshot) (num_mols : Int) (cell_dimensions : Int × Int)
    (cell_molecules : Int) : Except Err Snapshot :=
  if num_mols < 0 then Except.error Err.invalidArgument
  else if num_mols = 0 then Except.ok s
  else
    List.foldlM remove_molecule s
      (verticalIndices (central_molecule cell_dimensions cell_molecules) num_mols)

/-- The removal sequence of remove_horizontal: with
extent = max(num_mols // 4 * 2, 2), iterate count over the enumeration of
range(-extent, extent, 2); each iteration removes
index = center + column * y - count * 2 and then index + 2. -/
def horizontalIndices (center y num_mols : Int) : List Int :=
  let extent := max (num_mols.fdiv 4 * 2) 2
  (pythonRangeStep (-extent) extent 2).enum.flatMap
    (fun kc => [center + kc.2 * y - (kc.1 : Int) * 2,
      center + kc.2 * y - (kc.1 : Int) * 2 + 2])

/-- remove_horizontal from src/defects.py: guard the count, then fold
remove_molecule over the horizontal index sequence. -/
def remove_horizontal (s : Snapshot) (num_mols : Int) (cell_dimensions : Int × Int)
    (cell_molecules : Int) : Except Err Snapshot :=
  if num_mols < 0 then Except.error Err.invalidArgument
  else if num_mols = 0 then Except.ok s
  else
    List.foldlM remove_molecule s
      (horizontalIndices (central_molecule cell_dimensions cell_molecules)
        cell_dimensions.2 num_mols)

/-- The removal sequence of remove_vertical_cell: with
index = center - num_cells // 2 * 2, the first loop iteration removes
index - 2 then index, and every later iteration removes index - 1 then
index. -/
def cellIndices (center num_cells : Int) : List Int :=
  let index := center - num_cells.fdiv 2 * 2
  (List.range num_cells.toNat).flatMap
    (fun i => if i = 0 then [index - 2, index] else [index - 1, index])

/-- remove_vertical_cell from src/defects.py: guard the count, then fold
remove_molecule over the unit-cell index sequence. -/
def remove_vertical_cell (s : Snapshot) (num_cells : Int)
    (cell_dimensions : Int × Int) (cell_molecules : Int) : Except Err Snapshot :=
  if num_cells < 0 then Except.error Err.invalidArgument
  else if num_cells = 0 then Except.ok s
  else
    List.foldlM remove_molecule s
      (cellIndices (central_molecule cell_dimensions cell_molecules) num_cells)

/-! ### Helper lemmas about the embedding -/

theorem maxBody_cons (a : Nat) (t : List Nat) : maxBody (a :: t) = max a (maxBody t) := rfl

theorem maxBody_mem (l : List Nat) (h : l ≠ []) : maxBody l ∈ l := by
  induction l with
  | nil => exact absurd rfl h
  | cons a t ih =>
    by_cases ht : t = []
    · subst ht
      simp [maxBody]
    · rw [maxBody_cons]
      rcases max_choice a (maxBody t) with h1 | h1
      · rw [h1]
        exact List.mem_cons_self ..
      · rw [h1]
        exact List.mem_cons_of_mem _ (ih ht)

theorem le_maxBody (l : List Nat) (a : Nat) (h : a ∈ l) : a ≤ maxBody l := by
  induction l with
  | nil => simp at h
  | cons b t ih =>
    rw [maxBody_cons]
    rcases List.mem_cons.mp h with rfl | h2
    · exact le_max_left ..
    · exact le_trans (ih h2) (le_max_right ..)

theorem filter_cast_ne (l : List Nat) (j : Nat) :
    l.filter (fun b : Nat => decide ((b : Int) ≠ (j : Int)))
      = l.filter (fun b : Nat => decide (b ≠ j)) := by
  apply List.filter_congr
  intro b _
  simp only [decide_eq_decide]
  exact not_congr Int.natCast_inj

theorem length_filter_ne_count (l : List Nat) (j : Nat) :
    (l.filter (fun b : Nat => decide (b ≠ j))).length = l.length - l.count j := by
  induction l with
  | nil => rfl
  | cons a t ih =>
    have hc := List.count_le_length (a := j) (l := t)
    by_cases h : a = j
    · subst h
      rw [List.filter_cons_of_neg (by simp), List.count_cons_self]
      simp only [List.length_cons]
      omega
    · rw [List.filter_cons_of_pos (by simp [h]), List.count_cons_of_ne (Ne.symm h)]
      simp only [List.length_cons]
      omega

theorem length_filter_not_countP (l : List Nat) (i : Int) :
    (l.filter (fun b : Nat => decide ((b : Int) ≠ i))).length
      = l.length - l.countP (fun b : Nat => decide ((b : Int) = i)) := by
  induction l with
  | nil => rfl
  | cons a t ih =>
    have hc := List.countP_le_length (l := t) (p := fun b : Nat => decide ((b : Int) = i))
    by_cases h : (a : Int) = i
    · rw [List.filter_cons_of_neg (by simp [h]), List.countP_cons, if_pos (by simp [h])]
      simp only [List.length_cons]
      omega
    · rw [List.filter_cons_of_pos (by simp [h]), List.countP_cons, if_neg (by simp [h])]
      simp only [List.length_cons]
      omega

theorem broadcastAssign_self (n : Nat) (src : List Nat) (h : src.length = n) :
    broadcastAssign n src = some src := by
  simp [broadcastAssign, h]

theorem broadcastAssign_length (n : Nat) (src out : List Nat)
    (h : broadcastAssign n src = some out) : out.length = n := by
  unfold broadcastAssign at h
  by_cases hl : src.length = n
  · rw [if_pos hl] at h
    cases h
    exact hl
  · rw [if_neg hl] at h
    cases src with
    | nil => simp at h
    | cons a t =>
      cases t with
      | nil =>
        cases h
        simp
      | cons b u => simp at h

theorem remove_molecule_ok_spec (s : Snapshot) (i : Int)
    (hpres : ∃ b ∈ s.body, (b : Int) = i)
    (hlen : (s.body.filter (fun b : Nat => decide (b ≠ maxBody s.body))).length
      = (s.body.filter (fun b : Nat => decide ((b : Int) ≠ i))).length) :
    remove_molecule s i = Except.ok
      ⟨s.box, s.types, s.pairTypes,
        s.body.filter (fun b : Nat => decide (b ≠ maxBody s.body)),
        s.attrs.map (fun arr => maskFilter s.body arr i)⟩ := by
  obtain ⟨b0, hb0, hb0i⟩ := hpres
  have hcnt : 0 < s.body.countP (fun b : Nat => decide ((b : Int) = i)) :=
    List.countP_pos_iff.mpr ⟨b0, hb0, by simp [hb0i]⟩
  have hle := List.countP_le_length (l := s.body) (p := fun b : Nat => decide ((b : Int) = i))
  have hlt : (s.body.filter (fun b : Nat => decide ((b : Int) ≠ i))).length < s.body.length := by
    rw [length_filter_not_countP]
    omega
  unfold remove_molecule
  rw [if_neg (by simpa [Snapshot.N] using Nat.ne_of_lt hlt)]
  rw [broadcastAssign_self _ _ hlen]

theorem remove_molecule_invalidIndex_iff (s : Snapshot) (i : Int) :
    remove_molecule s i = Except.error Err.invalidIndex ↔ ∀ b ∈ s.body, (b : Int) ≠ i := by
  unfold remove_molecule
  by_cases hc : (s.body.filter (fun b : Nat => decide ((b : Int) ≠ i))).length = s.N
  · rw [if_pos hc]
    simp only [true_iff]
    intro b hb
    have hall := (List.countP_eq_length (p := fun b : Nat => decide ((b : Int) ≠ i))).mp
      (by rw [List.countP_eq_length_filter]; exact hc)
    simpa using hall b hb
  · rw [if_neg hc]
    constructor
    · intro h
      exfalso
      cases hb : broadcastAssign
          (s.body.filter (fun b : Nat => decide ((b : Int) ≠ i))).length
          (s.body.filter (fun b : Nat => decide (b ≠ maxBody s.body))) with
      | none => rw [hb] at h; simp at h
      | some out => rw [hb] at h; simp at h
    · intro hall
      exfalso
      apply hc
      rw [← List.countP_eq_length_filter]
      apply List.countP_eq_length.mpr
      intro b hb
      simpa using hall b hb

theorem remove_molecule_ok_body_length (s : Snapshot) (i : Int) (t : Snapshot)
    (h : remove_molecule s i = Except.ok t) :
    t.body.length = (s.body.filter (fun b : Nat => decide ((b : Int) ≠ i))).length := by
  unfold remove_molecule at h
  by_cases hc : (s.body.filter (fun b : Nat => decide ((b : Int) ≠ i))).length = s.N
  · rw [if_pos hc] at h
    cases h
  · rw [if_neg hc] at h
    cases hb : broadcastAssign
        (s.body.filter (fun b : Nat => decide ((b : Int) ≠ i))).length
        (s.body.filter (fun b : Nat => decide (b ≠ maxBody s.body))) with
    | none => rw [hb] at h; cases h
    | some out =>
      rw [hb] at h
      cases h
      exact broadcastAssign_length _ _ _ hb

theorem remove_molecule_neg_index (s : Snapshot) (i : Int) (hi : i < 0) :
    remove_molecule s i = Except.error Err.invalidIndex := by
  rw [remove_molecule_invalidIndex_iff]
  intro b _
  have := Int.natCast_nonneg b
  omega

theorem foldlM_remove_error (s : Snapshot) (x : Int) (t : List Int) (e : Err)
    (h : remove_molecule s x = Except.error e) :
    List.foldlM remove_molecule s (x :: t) = Except.error e := by
  simp only [List.foldlM, h]
  rfl

theorem central_molecule_22_1 : central_molecule (2, 2) 1 = 3 := by
  unfold central_molecule pythonInt
  norm_num

theorem central_molecule_33_1 : central_molecule (3, 3) 1 = 6 := by
  unfold central_molecule pythonInt
  norm_num

theorem central_molecule_54_2 : central_molecule (5, 4) 2 = 24 := by
  unfold central_molecule pythonInt
  norm_num

theorem central_molecule_44_2 : central_molecule (4, 4) 2 = 20 := by
  unfold central_molecule pythonInt
  norm_num

/-! ### Claim theorems -/

/-- C1: for every snapshot whose set of distinct molecule ids is exactly
the range 0 .. M-1, removing the molecule whose id is the maximum M-1 via
remove_molecule succeeds and yields a snapshot whose set of distinct
molecule ids is exactly the range 0 .. M-2, so id-contiguity is preserved
across the removal. -/
theorem c1_contiguity_preservation (s : Snapshot) (M : Nat) (hM : 0 < M)
    (h : s.body.toFinset = Finset.range M) :
    ∃ t, remove_molecule s ((M : Int) - 1) = Except.ok t ∧
      t.body.toFinset = Finset.range (M - 1) := by
  have hmem : M - 1 ∈ s.body := by
    have h1 : M - 1 ∈ s.body.toFinset := by
      rw [h, Finset.mem_range]
      omega
    simpa [List.mem_toFinset] using h1
  have hne : s.body ≠ [] := by
    intro hnil
    rw [hnil] at hmem
    simp at hmem
  have hmax : maxBody s.body = M - 1 := by
    have h1 : maxBody s.body ∈ s.body.toFinset := List.mem_toFinset.mpr (maxBody_mem _ hne)
    rw [h, Finset.mem_range] at h1
    have h2 := le_maxBody _ _ hmem
    omega
  have hcast : ((M : Int) - 1) = ((M - 1 : Nat) : Int) := by omega
  have hfilter : s.body.filter (fun b : Nat => decide ((b : Int) ≠ (M : Int) - 1))
      = s.body.filter (fun b : Nat => decide (b ≠ maxBody s.body)) := by
    rw [hmax]
    rw [show s.body.filter (fun b : Nat => decide ((b : Int) ≠ (M : Int) - 1))
        = s.body.filter (fun b : Nat => decide ((b : Int) ≠ ((M - 1 : Nat) : Int))) from by
      rw [hcast]]
    exact filter_cast_ne s.body (M - 1)
  refine ⟨_, remove_molecule_ok_spec s ((M : Int) - 1)
    ⟨M - 1, hmem, by omega⟩ (by rw [hfilter]), ?_⟩
  rw [hmax, List.toFinset_filter, h]
  ext b
  simp only [Finset.mem_filter, Finset.mem_range, decide_eq_true_eq]
  omega

/-- Witness for C1 at a concrete snapshot with molecule ids 0, 1, 2. -/
theorem c1_contiguity_preservation_witness :
    ∃ t, remove_molecule ⟨0, [], [], [0, 1, 2], []⟩ (((3 : Nat) : Int) - 1) = Except.ok t ∧
      t.body.toFinset = Finset.range ((3 : Nat) - 1) :=
  c1_contiguity_preservation ⟨0, [], [], [0, 1, 2], []⟩ 3 (by decide) (by decide)

/-- C3: for a molecule id m present in snapshot s, any snapshot returned by
remove_molecule s m has particle count equal to the particle count of s
minus the number of particles whose molecule id equals m. -/
theorem c3_count_conservation (s : Snapshot) (m : Int) (t : Snapshot)
    (hpres : ∃ b ∈ s.body, (b : Int) = m)
    (h : remove_molecule s m = Except.ok t) :
    t.N = s.N - s.body.countP (fun b : Nat => decide ((b : Int) = m)) := by
  have h1 := remove_molecule_ok_body_length s m t h
  have h2 := length_filter_not_countP s.body m
  simp only [Snapshot.N]
  omega

/-- Witness for C3: removing molecule 1 from a two-particle snapshot leaves
one particle. -/
theorem c3_count_conservation_witness :
    (⟨0, [], [], [0], [[5]]⟩ : Snapshot).N
      = (⟨0, [], [], [0, 1], [[5, 6]]⟩ : Snapshot).N
        - (⟨0, [], [], [0, 1], [[5, 6]]⟩ : Snapshot).body.countP
            (fun b : Nat => decide ((b : Int) = 1)) :=
  c3_count_conservation ⟨0, [], [], [0, 1], [[5, 6]]⟩ 1 ⟨0, [], [], [0], [[5]]⟩
    (by decide) rfl

/-- C4 counterexample: on the snapshot with body array [0, 0, 1] the id 0 is
present, yet remove_molecule fails: only one particle survives the keep
mask while two particles lie outside the maximum-id molecule, so the body
relabel copy assigns a length-two source into a length-one target and the
numpy slice assignment raises ValueError instead of returning a new
snapshot. -/
theorem c4_counterexample :
    (∃ b ∈ (⟨0, [], [], [0, 0, 1], []⟩ : Snapshot).body, (b : Int) = 0) ∧
      remove_molecule ⟨0, [], [], [0, 0, 1], []⟩ 0 = Except.error Err.broadcast :=
  ⟨by decide, rfl⟩

/-- C4 amended: remove_molecule fails with InvalidIndex exactly when no
particle has molecule id equal to index (so it never silently returns the
input unchanged in that case); when at least one particle matches it never
fails with InvalidIndex - though, as the counterexample shows, it does not
always return a snapshot without error - and it does return a new snapshot
without error whenever additionally the number of particles outside
molecule index equals the number of particles outside the maximum-id
molecule. -/
theorem c4_invalid_index_amended (s : Snapshot) (i : Int) :
    (remove_molecule s i = Except.error Err.invalidIndex ↔ ∀ b ∈ s.body, (b : Int) ≠ i) ∧
      ((∃ b ∈ s.body, (b : Int) = i) →
        remove_molecule s i ≠ Except.error Err.invalidIndex) ∧
      ((∃ b ∈ s.body, (b : Int) = i) →
        (s.body.filter (fun b : Nat => decide (b ≠ maxBody s.body))).length
          = (s.body.filter (fun b : Nat => decide ((b : Int) ≠ i))).length →
        ∃ t, remove_molecule s i = Except.ok t) := by
  refine ⟨remove_molecule_invalidIndex_iff s i, ?_, ?_⟩
  · intro hpres hbad
    obtain ⟨b, hb, hbi⟩ := hpres
    exact (remove_molecule_invalidIndex_iff s i).mp hbad b hb hbi
  · intro hpres hlen
    exact ⟨_, remove_molecule_ok_spec s i hpres hlen⟩

/-- Witness for C4 amended: on body [0, 1] the id 1 is present, the kept
length matches the non-maximal source length, and removal succeeds. -/
theorem c4_invalid_index_amended_witness :
    ∃ t, remove_molecule ⟨0, [], [], [0, 1], [[5, 6]]⟩ 1 = Except.ok t :=
  (c4_invalid_index_amended ⟨0, [], [], [0, 1], [[5, 6]]⟩ 1).2.2 (by decide) (by decide)

/-- C10: when all molecules hold the same number of particles and the
removed id j is present and not the maximal id, remove_molecule succeeds;
the resulting body array holds the original body values of the particles
lying outside the maximum-id molecule, while every other attribute array
holds the values of the particles lying outside molecule j: the id stripped
from the body labels is always the maximum id, not j. -/
theorem c10_max_id_stripped (s : Snapshot) (j : Nat)
    (hj : j ∈ s.body) (_hjmax : j ≠ maxBody s.body)
    (hsize : ∀ a ∈ s.body, ∀ b ∈ s.body, s.body.count a = s.body.count b) :
    ∃ t, remove_molecule s (j : Int) = Except.ok t ∧
      t.body = s.body.filter (fun b : Nat => decide (b ≠ maxBody s.body)) ∧
      t.attrs = s.attrs.map (fun arr => maskFilter s.body arr (j : Int)) := by
  have hne : s.body ≠ [] := List.ne_nil_of_mem hj
  have hmx : maxBody s.body ∈ s.body := maxBody_mem _ hne
  have hcnt : s.body.count j = s.body.count (maxBody s.body) := hsize j hj _ hmx
  have hlen : (s.body.filter (fun b : Nat => decide (b ≠ maxBody s.body))).length
      = (s.body.filter (fun b : Nat => decide ((b : Int) ≠ (j : Int)))).length := by
    rw [filter_cast_ne, length_filter_ne_count, length_filter_ne_count, hcnt]
  exact ⟨_, remove_molecule_ok_spec s (j : Int) ⟨j, hj, rfl⟩ hlen, rfl, rfl⟩

/-- Witness for C10: six particles in three two-particle molecules 0, 1, 2;
removing molecule 1 keeps the body values outside molecule 2 and the
attribute values outside molecule 1. -/
theorem c10_max_id_stripped_witness :
    ∃ t, remove_molecule ⟨0, [], [], [0, 0, 1, 1, 2, 2], [[10, 20, 30, 40, 50, 60]]⟩
        ((1 : Nat) : Int) = Except.ok t ∧
      t.body = List.filter (fun b : Nat => decide (b ≠ maxBody [0, 0, 1, 1, 2, 2]))
        [0, 0, 1, 1, 2, 2] ∧
      t.attrs = List.map
        (fun arr => maskFilter [0, 0, 1, 1, 2, 2] arr ((1 : Nat) : Int))
        [[10, 20, 30, 40, 50, 60]] :=
  c10_max_id_stripped ⟨0, [], [], [0, 0, 1, 1, 2, 2], [[10, 20, 30, 40, 50, 60]]⟩ 1
    (by decide) (by decide) (by decide)

/-- C2, code evaluated at the failing input: with cell dimensions (3, 3)
and one molecule per cell the anchor is 6, and for num_mols = 3 the loop of
remove_vertical runs over range(6 - (2 * 3) // 2, 6) = [3, 4, 5], removing
three molecules - an odd count - because Python groups 2 * num_mols // 2 as
(2 * num_mols) // 2 = num_mols.  The claim (and the docstring of
remove_vertical) instead promise the even count 2 * floor(3 / 2) = 2, that
is the run [4, 5]. -/
theorem c2_vertical_run_odd_eval :
    verticalIndices (central_molecule (3, 3) 1) 3 = [3, 4, 5] ∧
      (verticalIndices (central_molecule (3, 3) 1) 3).length = 3 := by
  rw [central_molecule_33_1]
  exact ⟨by decide, by decide⟩

/-- C5: remove_horizontal s 40 (2, 2) 1 computes extent 20, so its first
removal targets index 3 - 40 = -37, which matches no molecule in any
snapshot; the InvalidIndex error propagates through the fold to the caller
and no partially reduced snapshot is returned (the fold yields the error
alone, and the input snapshot, being a pure value, is untouched). -/
theorem c5_failure_propagation (s : Snapshot) :
    remove_horizontal s 40 (2, 2) 1 = Except.error Err.invalidIndex := by
  unfold remove_horizontal
  rw [if_neg (by omega : ¬ (40 : Int) < 0), if_neg (by omega : ¬ (40 : Int) = 0),
    central_molecule_22_1]
  show List.foldlM remove_molecule s (horizontalIndices 3 2 40) = Except.error Err.invalidIndex
  rw [show horizontalIndices 3 2 40 = -37 :: (horizontalIndices 3 2 40).tail from by decide]
  exact foldlM_remove_error s (-37) _ _ (remove_molecule_neg_index s (-37) (by omega))

/-- C7: for positive x, y and cell_molecules, central_molecule equals the
floor of the real-valued expression (x / 2 * y + y / 2) * cell_molecules
taken once at the end (Python int() truncation agrees with floor on this
non-negative value); in particular the odd-x case central_molecule (3, 3) 1
evaluates to 6, pinning the divide-then-floor-once order. -/
theorem c7_locator_real_division (x y cm : Int) (hx : 0 < x) (hy : 0 < y)
    (hcm : 0 < cm) :
    central_molecule (x, y) cm
        = Int.floor (((x : ℚ) / 2 * (y : ℚ) + (y : ℚ) / 2) * (cm : ℚ)) ∧
      central_molecule (3, 3) 1 = 6 := by
  refine ⟨?_, central_molecule_33_1⟩
  have hx2 : (0 : ℚ) ≤ (x : ℚ) := by exact_mod_cast hx.le
  have hy2 : (0 : ℚ) ≤ (y : ℚ) := by exact_mod_cast hy.le
  have hcm2 : (0 : ℚ) ≤ (cm : ℚ) := by exact_mod_cast hcm.le
  have h0 : (0 : ℚ) ≤ ((x : ℚ) / 2 * (y : ℚ) + (y : ℚ) / 2) * (cm : ℚ) :=
    mul_nonneg (add_nonneg (mul_nonneg (div_nonneg hx2 (by norm_num)) hy2)
      (div_nonneg hy2 (by norm_num))) hcm2
  unfold central_molecule pythonInt
  rw [if_neg (not_lt.mpr h0)]

/-- Witness for C7 at x = y = cell_molecules = 1. -/
theorem c7_locator_real_division_witness :
    central_molecule (1, 1) 1
        = Int.floor ((((1 : Int) : ℚ) / 2 * ((1 : Int) : ℚ) + ((1 : Int) : ℚ) / 2)
          * ((1 : Int) : ℚ)) ∧
      central_molecule (3, 3) 1 = 6 :=
  c7_locator_real_division 1 1 1 (by decide) (by decide) (by decide)

/-- C8 counterexample: central_molecule (5, 4) 2 is not 14; the expression
(5 / 2 * 4 + 4 / 2) * 2 evaluates to 24.0, not 14.0. -/
theorem c8_locator_fixture_counterexample : ¬ central_molecule (5, 4) 2 = 14 := by
  rw [central_molecule_54_2]
  decide

/-- C8 amended: central_molecule (5, 4) 2 equals 24, the floor of
(5 / 2 * 4 + 4 / 2) * 2 = 24.0. -/
theorem c8_locator_fixture_amended : central_molecule (5, 4) 2 = 24 :=
  central_molecule_54_2

theorem fdiv_two_succ (e : Int) (he : 0 ≤ e) : (2 * e + 1).fdiv 2 = e := by
  rcases Int.eq_ofNat_of_zero_le he with ⟨k, rfl⟩
  rw [show (2 * (k : Int) + 1) = ((2 * k + 1 : Nat) : Int) from by push_cast; ring]
  rw [show (2 : Int) = ((2 : Nat) : Int) from rfl]
  rw [show ((2 * k + 1 : Nat) : Int).fdiv ((2 : Nat) : Int)
    = (((2 * k + 1) / 2 : Nat) : Int) from rfl]
  rw [show (2 * k + 1) / 2 = k from by omega]

theorem horizontalIndices_length (center y n : Int) :
    ((horizontalIndices center y n).length : Int) = max (n.fdiv 4 * 4) 4 := by
  unfold horizontalIndices
  have he0 : 0 ≤ max (n.fdiv 4 * 2) 2 := le_trans (by omega) (le_max_right _ _)
  have hflat : ∀ (l : List (Nat × Int)),
      (l.flatMap (fun kc => [center + kc.2 * y - (kc.1 : Int) * 2,
        center + kc.2 * y - (kc.1 : Int) * 2 + 2])).length = 2 * l.length := by
    intro l
    induction l with
    | nil => rfl
    | cons a t ih =>
      simp only [List.flatMap_cons, List.length_append, List.length_cons, ih]
      simp
      omega
  rw [hflat]
  rw [List.enum_length]
  unfold pythonRangeStep
  rw [List.length_map, List.length_range]
  rw [show max (n.fdiv 4 * 2) 2 - -max (n.fdiv 4 * 2) 2 + 2 - 1
    = 2 * max (n.fdiv 4 * 2) 2 + 1 from by ring]
  rw [fdiv_two_succ _ he0]
  push_cast [Int.toNat_of_nonneg he0]
  omega

/-- C6: for every positive count on which remove_horizontal succeeds, the
fold processes exactly the horizontal index sequence, whose length - the
number of molecules removed, one per successful removal - equals
max(floor(count / 4) * 4, 4): always a multiple of 4 and never below 4. -/
theorem c6_multiple_of_four (s t : Snapshot) (num_mols cm x y : Int)
    (h : 0 < num_mols)
    (_hsucc : remove_horizontal s num_mols (x, y) cm = Except.ok t) :
    ((horizontalIndices (central_molecule (x, y) cm) y num_mols).length : Int)
        = max (num_mols.fdiv 4 * 4) 4 ∧
      remove_horizontal s num_mols (x, y) cm
        = List.foldlM remove_molecule s
            (horizontalIndices (central_molecule (x, y) cm) y num_mols) := by
  refine ⟨horizontalIndices_length .., ?_⟩
  unfold remove_horizontal
  rw [if_neg (by omega), if_neg (by omega)]

/-- Witness for C6: a 32-molecule lattice with cell dimensions (4, 4) and
two molecules per cell; remove_horizontal with count 1 succeeds after
removing the four molecules 12, 14, 18, 20. -/
theorem c6_multiple_of_four_witness :
    ((horizontalIndices (central_molecule (4, 4) 2) 4 1).length : Int)
        = max ((1 : Int).fdiv 4 * 4) 4 ∧
      remove_horizontal ⟨0, [], [], List.range 32, []⟩ 1 (4, 4) 2
        = List.foldlM remove_molecule ⟨0, [], [], List.range 32, []⟩
            (horizontalIndices (central_molecule (4, 4) 2) 4 1) :=
  c6_multiple_of_four ⟨0, [], [], List.range 32, []⟩ ⟨0, [], [], List.range 28, []⟩
    1 2 4 4 (by decide)
    (by
      unfold remove_horizontal
      rw [if_neg (by omega), if_neg (by omega), central_molecule_44_2]
      rfl)

/-- C9: each placement algorithm validates its count first: a zero count
returns the input snapshot unchanged, and a negative count fails with
InvalidArgument before any removal happens. -/
theorem c9_count_validation (s : Snapshot) (c : Int) (dims : Int × Int) (cm : Int)
    (hc : c < 0) :
    remove_vertical s 0 dims cm = Except.ok s ∧
      remove_horizontal s 0 dims cm = Except.ok s ∧
      remove_vertical_cell s 0 dims cm = Except.ok s ∧
      remove_vertical s c dims cm = Except.error Err.invalidArgument ∧
      remove_horizontal s c dims cm = Except.error Err.invalidArgument ∧
      remove_vertical_cell s c dims cm = Except.error Err.invalidArgument := by
  unfold remove_vertical remove_horizontal remove_vertical_cell
  refine ⟨?_, ?_, ?_, ?_, ?_, ?_⟩
  · rw [if_neg (by omega), if_pos rfl]
  · rw [if_neg (by omega), if_pos rfl]
  · rw [if_neg (by omega), if_pos rfl]
  · rw [if_pos hc]
  · rw [if_pos hc]
  · rw [if_pos hc]

/-- Witness for C9 at the empty snapshot, count -1, cell dimensions (1, 1)
and one molecule per cell. -/
theorem c9_count_validation_witness :
    remove_vertical ⟨0, [], [], [], []⟩ 0 (1, 1) 1 = Except.ok ⟨0, [], [], [], []⟩ ∧
      remove_horizontal ⟨0, [], [], [], []⟩ 0 (1, 1) 1 = Except.ok ⟨0, [], [], [], []⟩ ∧
      remove_vertical_cell ⟨0, [], [], [], []⟩ 0 (1, 1) 1 = Except.ok ⟨0, [], [], [], []⟩ ∧
      remove_vertical ⟨0, [], [], [], []⟩ (-1) (1, 1) 1
        = Except.error Err.invalidArgument ∧
      remove_horizontal ⟨0, [], [], [], []⟩ (-1) (1, 1) 1
        = Except.error Err.invalidArgument ∧
      remove_vertical_cell ⟨0, [], [], [], []⟩ (-1) (1, 1) 1
        = Except.error Err.invalidArgument :=
  c9_count_validation ⟨0, [], [], [], []⟩ (-1) (1, 1) 1 (by decide)

end Defects
